import Mathlib

/-!
Shallow embedding of the mutable-filesystem layer of pkg/fs/mut.go and the
directory-lock registry of pkg/blobserver/localdisk/dirlock.go from the
camlistore repository.

Modelling conventions:
* a blob reference is its string form (`blobref.Parse` is the identity);
* wall-clock instants are natural numbers; the Go zero `time.Time` is `none`
  in an `Option Nat`;
* external effects (describe responses, blob-upload outcomes) enter the
  model as explicit arguments, and the claims a function uploads are
  returned as an explicit list, in upload order;
* a Go `map[string]T` iterated or updated by the code is an association
  list `List (String × T)`.
-/

namespace CamliFs

/-- A blob reference, by its string form. -/
abbrev BlobRef := String

/-- `strings.HasPrefix`, over the characters of the strings (the keys in
question are ASCII, so Go's byte view and the character view agree). -/
def strHasPrefix (s p : String) : Bool := p.data.isPrefixOf s.data

/-- Go slicing `s[n:]`, over characters (ASCII keys). -/
def strDropChars (s : String) (n : Nat) : String := ⟨s.data.drop n⟩

/-- Claim kinds the fs layer emits: `schema.NewSetAttributeClaim` and
`schema.NewDelAttributeClaim`. -/
inductive ClaimKind where
  | set
  | del
deriving DecidableEq, Repr

/-- A signed attribute claim as built by mut.go: kind, target permanode,
attribute key, value (empty for del-attribute), and the optional claim date
set via `SetClaimDate`. -/
structure Claim where
  kind : ClaimKind
  permanode : BlobRef
  key : String
  value : String
  date : Option Nat
deriving DecidableEq, Repr

/-- A child node as stored in `mutDir.children`: either a `mutDir` or a
`mutFile` (which doubles as the symlink representation), with the fields
`populate` and `creat` fill in. -/
inductive MutNode where
  | dir (permanode : BlobRef)
  | file (permanode : BlobRef) (symLink : Bool) (target : String)
      (content : Option BlobRef) (size : Int)
deriving DecidableEq, Repr

/-- `permanodeString` of a child node (mut.go lines 678-684). -/
def MutNode.permanodeString : MutNode → String
  | .dir p => p
  | .file p _ _ _ _ => p

/-- The `children` map of a `mutDir`, as an association list; the empty list
doubles as Go's nil map. -/
abbrev Children := List (String × MutNode)

/-- Map lookup `n.children[name]`. -/
def getChild : Children → String → Option MutNode
  | [], _ => none
  | (k, v) :: rest, name => if k = name then some v else getChild rest name

/-- Map assignment `n.children[name] = node` (insert or overwrite). -/
def setChild : Children → String → MutNode → Children
  | [], name, node => [(name, node)]
  | (k, v) :: rest, name, node =>
      if k = name then (name, node) :: rest else (k, v) :: setChild rest name node

/-- Map deletion `delete(n.children, name)`. -/
def delChild : Children → String → Children
  | [], _ => []
  | (k, v) :: rest, name =>
      if k = name then delChild rest name else (k, v) :: delChild rest name

/-- The attribute map of a described permanode
(`search.DescribedPermanode.Attr`): attribute name to ordered value list. -/
abbrev AttrMap := List (String × List String)

/-- `Attr.Get(key)`: the first value under `key`, or `""` when absent or
empty — the `url.Values.Get` semantics used by mut.go. -/
def attrGet : AttrMap → String → String
  | [], _ => ""
  | (k, vs) :: rest, key =>
      if k = key then (match vs with | [] => "" | v :: _ => v)
      else attrGet rest key

/-- One entry of a describe response's meta map
(`search.DescribedBlob`): its camliType, its permanode attributes, and, for
`file` blobs, `File.Size`. -/
structure DescribedBlob where
  camliType : String
  attr : AttrMap
  fileSize : Int
deriving DecidableEq, Repr

/-- The meta map of a describe response, blob-ref string to description. -/
abbrev Meta := List (String × DescribedBlob)

/-- `res.Meta[ref]` lookup. -/
def metaGet : Meta → String → Option DescribedBlob
  | [], _ => none
  | (k, v) :: rest, ref => if k = ref then some v else metaGet rest ref

/-- The in-memory state of a `mutDir` that populate touches: its permanode,
`lastPop`, and the children map. -/
structure MutDirState where
  permanode : BlobRef
  lastPop : Nat
  children : Children
deriving DecidableEq, Repr

/-- `populateInterval` (mut.go line 41), in seconds. -/
def populateInterval : Nat := 30

/-- The body of populate's per-attribute loop (mut.go lines 110-162),
resolving one attribute `(k, v)` of the directory permanode to the child
node the loop would store, or `none` on each `continue` path: non-camliPath
key, empty value list, undescribed child, missing or non-file content. The
map key the node is stored under is `name = k[len("camliPath:"):]`,
computed by `processAttr`. -/
def attrNode (meta : Meta) (kv : String × List String) : Option MutNode :=
  if ¬ strHasPrefix kv.1 "camliPath:" then none
  else
    match kv.2 with
    | [] => none
    | childRef :: _ =>
      match metaGet meta childRef with
      | none => none
      | some child =>
        let target := attrGet child.attr "camliSymlinkTarget"
        if target ≠ "" then
          some (.file childRef true target none 0)
        else
          let contentRef := attrGet child.attr "camliContent"
          if contentRef ≠ "" then
            match metaGet meta contentRef with
            | none => none
            | some content =>
              if content.camliType ≠ "file" then none
              else some (.file childRef false "" (some contentRef) content.fileSize)
          else some (.dir childRef)

/-- One iteration of populate's loop: store the resolved child under
`name = k[len("camliPath:"):]`, or leave the map unchanged on a
`continue`. -/
def processAttr (meta : Meta) (ch : Children) (kv : String × List String) :
    Children :=
  match attrNode meta kv with
  | none => ch
  | some node => setChild ch (strDropChars kv.1 "camliPath:".length) node

/-- `mutDir.populate` (mut.go lines 82-164). `now` is `time.Now()`; `desc`
is the describe outcome (`none` models a describe error). Returns the
directory state after the call together with `none` on the nil-error
returns and `some msg` for the `errors.New` return; note the Go method
mutates the receiver in place, so `lastPop` updates survive the error
return. -/
def populate (now : Nat) (desc : Option Meta) (d : MutDirState) :
    MutDirState × Option String :=
  if d.lastPop + populateInterval > now then (d, none)
  else
    let d := { d with lastPop := now }
    match desc with
    | none => (d, none)
    | some meta =>
      match metaGet meta d.permanode with
      | none => (d, some "dir blobref not described")
      | some db =>
        ({ d with children := db.attr.foldl (processAttr meta) d.children }, none)

/-! ### File node (`mutFile`) -/

/-- The mutable fields of a `mutFile` that the claims touch. Absent
(Go zero) times are `none`. -/
structure MutFileState where
  content : Option BlobRef
  size : Int
  mtime : Option Nat
  atime : Option Nat
deriving DecidableEq, Repr

/-- `mutFile.modTime` (mut.go lines 460-467): `mtime` when set, else
`serverStart`. -/
def modTime (serverStart : Nat) (f : MutFileState) : Nat :=
  match f.mtime with
  | some t => t
  | none => serverStart

/-- `mutFile.accessTime` (mut.go lines 450-458): `atime` when set, else
`modTime`. -/
def accessTime (serverStart : Nat) (f : MutFileState) : Nat :=
  match f.atime with
  | some t => t
  | none => modTime serverStart f

/-- The fields of the `fuse.Attr` that `mutFile.Attr` fills in (uid/gid,
which only echo the mounting process, are omitted). `mode` is split into
the permission bits and the `os.ModeSymlink` flag. -/
structure FuseAttr where
  inode : Nat
  modePerm : Nat
  modeSymlink : Bool
  size : Nat
  blocks : Nat
  mtime : Nat
  atime : Nat
  ctime : Nat
  crtime : Nat
deriving DecidableEq, Repr

/-- `mutFile.Attr` (mut.go lines 420-448). `permanodeU64` is
`n.permanode.AsUint64()`; `uint64(size)` is the two's-complement cast of
the int64 `size`. -/
def mutFileAttr (serverStart : Nat) (permanodeU64 : Nat) (symLink : Bool)
    (f : MutFileState) : FuseAttr :=
  let sizeU64 : Nat := (f.size % (2 ^ 64 : Int)).toNat
  { inode := permanodeU64
    modePerm := 0o600
    modeSymlink := symLink
    size := sizeU64
    blocks := if f.size > 0 then sizeU64 / 512 + 1 else 0
    mtime := modTime serverStart f
    atime := accessTime serverStart f
    ctime := serverStart
    crtime := serverStart }

/-- `mutFile.setSizeAtLeast` (mut.go lines 479-486), as its action on the
`size` field. -/
def setSizeAtLeast (size : Int) (cur : Int) : Int :=
  if size > cur then size else cur

/-- `mutFile.setContent` (mut.go lines 469-477). `permanode` is the file
node's permanode; `uploadOk` is the outcome of `UploadAndSignBlob`.
Returns the file state after the call (the fields are assigned before the
upload), the claim uploaded, and `true` when the method returns a non-nil
error. -/
def setContent (permanode : BlobRef) (br : BlobRef) (size : Int)
    (uploadOk : Bool) (f : MutFileState) : MutFileState × Claim × Bool :=
  let f := { f with content := some br, size := size }
  let claim : Claim := ⟨.set, permanode, "camliContent", br, none⟩
  (f, claim, ¬ uploadOk)

/-! ### Write handle (`mutFileHandle`) -/

/-- Observable outcome of `mutFile.newHandle` (mut.go lines 569-583):
whether it returned `fuse.EIO`, whether a temp file was created, and
whether the temp file was closed and removed before returning. -/
structure NewHandleResult where
  eio : Bool
  tmpCreated : Bool
  tmpClosed : Bool
  tmpRemoved : Bool
deriving DecidableEq, Repr

/-- `mutFile.newHandle`: `tmpOk` is the outcome of `ioutil.TempFile`,
`hasBody` whether a non-nil seed reader was passed, `copyOk` the outcome
of `io.Copy`. -/
def newHandle (tmpOk hasBody copyOk : Bool) : NewHandleResult :=
  if ¬ tmpOk then ⟨true, false, false, false⟩
  else if hasBody ∧ ¬ copyOk then ⟨true, true, true, true⟩
  else ⟨false, true, false, false⟩

/-- Observable outcome of `mutFileHandle.Release` (mut.go lines 632-656):
whether it returned `fuse.EIO`, whether the scratch temp file was closed
and removed, whether `h.tmp` was set to nil (the handle marked released),
and the `(blobref, size)` passed to `setContent` on the commit path. -/
structure ReleaseResult where
  eio : Bool
  scratchClosed : Bool
  scratchRemoved : Bool
  handleReleased : Bool
  committed : Option (BlobRef × Int)
deriving DecidableEq, Repr

/-- `mutFileHandle.Release`. `permanode` is the owning file node's
permanode; `tmpSet` is whether `h.tmp` is non-nil on entry; `seekOk` the
outcome of `h.tmp.Seek(0, 0)`; `upload` the outcome of
`schema.WriteFileFromReader` (`some (br, n)` on success);
`setContentUploadOk` the outcome of the claim upload inside `setContent`
(whose returned error Release discards). Also returns the file state after
the call. -/
def Release (permanode : BlobRef) (tmpSet seekOk : Bool)
    (upload : Option (BlobRef × Int)) (setContentUploadOk : Bool)
    (f : MutFileState) : ReleaseResult × MutFileState :=
  if ¬ tmpSet then (⟨true, false, false, false, none⟩, f)
  else if ¬ seekOk then (⟨true, false, false, false, none⟩, f)
  else
    match upload with
    | none => (⟨true, false, false, false, none⟩, f)
    | some (br, n) =>
      let (f, _claim, _err) := setContent permanode br n setContentUploadOk f
      (⟨false, true, true, true, some (br, n)⟩, f)

/-! ### Directory operations: Remove and Rename -/

/-- A FUSE-level result of a directory operation: success, `fuse.EIO`, or
`fuse.ENOENT`. -/
inductive FuseRes where
  | ok
  | eio
  | enoent
deriving DecidableEq, Repr

/-- `mutDir.Remove` (mut.go lines 317-332). `uploadOk` is the outcome of
`UploadAndSignBlob`. Returns the result, the directory state after the
call, and the claims uploaded (attempted), in order. -/
def Remove (name : String) (uploadOk : Bool) (d : MutDirState) :
    FuseRes × MutDirState × List Claim :=
  let claim : Claim := ⟨.del, d.permanode, "camliPath:" ++ name, "", none⟩
  if ¬ uploadOk then (.eio, d, [claim])
  else (.ok, { d with children := delChild d.children name }, [claim])

/-- `mutDir.Rename` (mut.go lines 335-395), up to and including the claim
uploads (the subsequent in-memory move touches no claims and, run
sequentially, cannot trip the race panic). `newDir` is `none` when the
destination node is not a `*mutDir`; `descSrc`/`descDst` are the describe
outcomes the two populate calls would see at time `popNow`; `claimNow` is
the `time.Now()` captured for both claim dates; `upload1`/`upload2` are
the outcomes of the two `UploadAndSignBlob` calls. Returns the result and
the claims uploaded (attempted), in order. -/
def Rename (newDir : Option MutDirState) (src : MutDirState)
    (descSrc descDst : Option Meta) (popNow claimNow : Nat)
    (oldName newName : String) (upload1 upload2 : Bool) :
    FuseRes × List Claim :=
  match newDir with
  | none => (.eio, [])
  | some dst =>
    let ps := populate popNow descSrc src
    if ps.2.isSome then (.eio, [])
    else
      let pd := populate popNow descDst dst
      if pd.2.isSome then (.eio, [])
      else
        match getChild ps.1.children oldName with
        | none => (.enoent, [])
        | some target =>
          let c1 : Claim :=
            ⟨.set, pd.1.permanode, "camliPath:" ++ newName,
              target.permanodeString, some claimNow⟩
          if ¬ upload1 then (.eio, [c1])
          else
            let c2 : Claim :=
              ⟨.del, ps.1.permanode, "camliPath:" ++ oldName, "", some claimNow⟩
            if ¬ upload2 then (.eio, [c1, c2])
            else (.ok, [c1, c2])

end CamliFs

namespace DirLock

/-!
### Directory lock registry (pkg/blobserver/localdisk/dirlock.go)

`sync.RWMutex` values are allocated with `new`; distinct allocations are
distinct objects, modelled by numbering them: `nextId` is the number the
next `new(sync.RWMutex)` would receive, so two locks are the same object
iff they carry the same number. The lock/unlock calls on the returned
RWMutex itself (RLock/RUnlock vs Lock/Unlock) are blocking concurrency and
are not modelled; what is modelled is the registry state the claims are
about: `locksOut` and the `dirLocks` map, both guarded by `dirLockMu`.
-/

/-- The registry state: the package-level `locksOut` counter and `dirLocks`
map (dirlock.go lines 23-27), plus the allocation counter for fresh
RWMutex objects. -/
structure RegState where
  locksOut : Int
  dirLocks : List (String × Nat)
  nextId : Nat
deriving DecidableEq, Repr

/-- The initial package state: `locksOut = 0`, empty map. -/
def initState : RegState := ⟨0, [], 0⟩

/-- Lookup in the `dirLocks` map. -/
def lockGet : List (String × Nat) → String → Option Nat
  | [], _ => none
  | (k, v) :: rest, dir => if k = dir then some v else lockGet rest dir

/-- `getDirLock` (dirlock.go lines 29-39): increment `locksOut`, return the
lock mapped to `dir`, allocating and inserting a fresh one when absent. -/
def getDirLock (dir : String) (st : RegState) : Nat × RegState :=
  let st := { st with locksOut := st.locksOut + 1 }
  match lockGet st.dirLocks dir with
  | some l => (l, st)
  | none =>
      (st.nextId,
        { st with
          dirLocks := (dir, st.nextId) :: st.dirLocks
          nextId := st.nextId + 1 })

/-- `unlockDirLock` (dirlock.go lines 41-48): decrement `locksOut` and, at
zero, reset the whole map. -/
def unlockDirLock (st : RegState) : RegState :=
  let st := { st with locksOut := st.locksOut - 1 }
  if st.locksOut = 0 then { st with dirLocks := [] } else st

/-- `keepDirectoryLock` (dirlock.go lines 57-61) as its effect on the
registry: it is `getDirLock` followed by `RLock` on the returned lock. -/
def keepDirectoryLock (dir : String) (st : RegState) : Nat × RegState :=
  getDirLock dir st

/-- `deleteDirectoryLock` (dirlock.go lines 75-79) as its effect on the
registry: it is `getDirLock` followed by `Lock` on the returned lock. -/
def deleteDirectoryLock (dir : String) (st : RegState) : Nat × RegState :=
  getDirLock dir st

/-- `keepLock.Unlock` / `deleteLock.Unlock` (dirlock.go lines 67-70 and
85-88) as their effect on the registry: RUnlock/Unlock on the held lock,
then `unlockDirLock`. -/
def lockUnlock (st : RegState) : RegState :=
  unlockDirLock st

/-- Registry well-formedness: every lock number in the map was allocated
before `nextId`. Holds for `initState` and is preserved by the
operations. -/
def RegWf (st : RegState) : Prop :=
  ∀ pl ∈ st.dirLocks, pl.2 < st.nextId

instance (st : RegState) : Decidable (RegWf st) :=
  inferInstanceAs (Decidable (∀ pl ∈ st.dirLocks, pl.2 < st.nextId))

end DirLock

namespace CamliFs

/-! ## Theorems -/

/-- C6: `setSizeAtLeast(n)` sets `size` to `max(size, n)`; hence `size`
never decreases across `setSizeAtLeast` calls, and applying it twice with
the same argument equals applying it once. -/
theorem setSizeAtLeast_is_monotone_max (n cur : Int) :
    setSizeAtLeast n cur = max cur n
      ∧ cur ≤ setSizeAtLeast n cur
      ∧ setSizeAtLeast n (setSizeAtLeast n cur) = setSizeAtLeast n cur := by
  simp only [setSizeAtLeast, max_def]
  constructor
  · split <;> split <;> omega
  · constructor
    · split <;> omega
    · split <;> simp_all

/-- C7: `mutFile.Attr` reports `Blocks = size/512 + 1` when `size > 0` and
`0` when `size = 0`, `Size` equal to the node's `size`, `Inode` equal to
the 64-bit projection of the permanode, and mode `0600` plus the symlink
bit exactly when the node is a symlink. (`size` is a Go `int64`, hence
below `2^64`.) -/
theorem mutFileAttr_fields (serverStart permanodeU64 : Nat) (symLink : Bool)
    (f : MutFileState) (h0 : 0 ≤ f.size) (h64 : f.size < 2 ^ 64) :
    (0 < f.size →
        (mutFileAttr serverStart permanodeU64 symLink f).blocks
          = f.size.toNat / 512 + 1)
      ∧ (f.size = 0 → (mutFileAttr serverStart permanodeU64 symLink f).blocks = 0)
      ∧ (mutFileAttr serverStart permanodeU64 symLink f).size = f.size.toNat
      ∧ (mutFileAttr serverStart permanodeU64 symLink f).inode = permanodeU64
      ∧ (mutFileAttr serverStart permanodeU64 symLink f).modePerm = 0o600
      ∧ (mutFileAttr serverStart permanodeU64 symLink f).modeSymlink = symLink := by
  have hmod : f.size % (2 ^ 64 : Int) = f.size := Int.emod_eq_of_lt h0 h64
  refine ⟨fun hpos => ?_, fun hz => ?_, ?_, rfl, rfl, rfl⟩
  · simp only [mutFileAttr, hmod, if_pos hpos]
  · simp only [mutFileAttr, hmod, hz]
    norm_num
  · simp only [mutFileAttr, hmod]

/-- Witness for `mutFileAttr_fields` at a concrete file of size 1000. -/
theorem mutFileAttr_fields_witness :
    (0 < (1000 : Int) →
        (mutFileAttr 7 42 false ⟨none, 1000, none, none⟩).blocks
          = (1000 : Int).toNat / 512 + 1)
      ∧ ((1000 : Int) = 0 →
          (mutFileAttr 7 42 false ⟨none, 1000, none, none⟩).blocks = 0)
      ∧ (mutFileAttr 7 42 false ⟨none, 1000, none, none⟩).size = (1000 : Int).toNat
      ∧ (mutFileAttr 7 42 false ⟨none, 1000, none, none⟩).inode = 42
      ∧ (mutFileAttr 7 42 false ⟨none, 1000, none, none⟩).modePerm = 0o600
      ∧ (mutFileAttr 7 42 false ⟨none, 1000, none, none⟩).modeSymlink = false :=
  mutFileAttr_fields 7 42 false ⟨none, 1000, none, none⟩ (by decide) (by decide)

/-- C10: for every directory state and name, `Remove` uploads the
del-attribute `camliPath:name` claim on the directory's permanode; when the
upload succeeds it returns success — also when `name` is absent from the
children map — and no outcome of `Remove` is ever *not found*. -/
theorem remove_never_enoent (name : String) (uploadOk : Bool)
    (d : MutDirState) :
    (Remove name uploadOk d).2.2
        = [⟨.del, d.permanode, "camliPath:" ++ name, "", none⟩]
      ∧ (Remove name true d).1 = .ok
      ∧ (Remove name uploadOk d).1 ≠ .enoent := by
  refine ⟨?_, rfl, ?_⟩ <;> cases uploadOk <;> simp [Remove]

/-- C2 counterexample: when `h.tmp.Seek(0, 0)` fails, Release returns
*I/O error* with the scratch neither closed nor removed and the handle not
marked released — the claim's demand that every exit path of Release
closes and removes the scratch and marks the handle released is false on
this path. -/
theorem release_seek_failure_leaks :
    (Release "pn" true false (some ("br", 5)) true ⟨none, 0, none, none⟩).1
      = ⟨true, false, false, false, none⟩ := by decide

/-- C2 amended: the scratch is closed, removed, and the handle marked
released only on Release's success path; on the seek-failure and
upload-failure paths Release returns *I/O error* leaving the scratch open
and the handle still holding it. During construction, a seed-copy failure
closes and removes the temp file before failing, and a temp-file-creation
failure fails with no scratch ever created. -/
theorem release_cleanup_paths (permanode br : BlobRef) (n : Int)
    (upload : Option (BlobRef × Int)) (scUp hasBody copyOk : Bool)
    (f : MutFileState) :
    (Release permanode true true (some (br, n)) scUp f).1
        = ⟨false, true, true, true, some (br, n)⟩
      ∧ (Release permanode true false upload scUp f).1
        = ⟨true, false, false, false, none⟩
      ∧ (Release permanode true true none scUp f).1
        = ⟨true, false, false, false, none⟩
      ∧ (Release permanode false true upload scUp f).1
        = ⟨true, false, false, false, none⟩
      ∧ newHandle false hasBody copyOk = ⟨true, false, false, false⟩
      ∧ newHandle true true false = ⟨true, true, true, true⟩
      ∧ newHandle true false copyOk = ⟨false, true, false, false⟩
      ∧ newHandle true hasBody true = ⟨false, true, false, false⟩ := by
  refine ⟨rfl, rfl, rfl, rfl, ?_, rfl, rfl, ?_⟩ <;>
    cases hasBody <;> cases copyOk <;> rfl

/-- C3 counterexample: with the scratch upload succeeding but the
`camliContent` claim upload inside `setContent` failing, Release returns
success (not *I/O error*) and the file node's in-memory `content` and
`size` are updated anyway. -/
theorem release_ignores_setContent_error :
    (Release "pn" true true (some ("br", 5)) false ⟨none, 0, none, none⟩).1.eio
        = false
      ∧ (Release "pn" true true (some ("br", 5)) false
          ⟨none, 0, none, none⟩).2
        = ⟨some "br", 5, none, none⟩
      ∧ (setContent "pn" "br" 5 false ⟨none, 0, none, none⟩).2.2 = true
      ∧ (⟨some "br", 5, none, none⟩ : MutFileState) ≠ ⟨none, 0, none, none⟩ := by
  refine ⟨rfl, rfl, rfl, by decide⟩

/-- C3 amended: `setContent` assigns the in-memory `content` and `size`
before uploading the `camliContent` claim, so a failed upload still leaves
both fields updated and returns the error; and Release discards
`setContent`'s error entirely, returning success whenever the seek and the
scratch upload succeeded, regardless of the claim-upload outcome. -/
theorem setContent_updates_before_upload (permanode br : BlobRef) (n : Int)
    (scUp : Bool) (f : MutFileState) :
    (setContent permanode br n false f).1
        = { f with content := some br, size := n }
      ∧ (setContent permanode br n false f).2.2 = true
      ∧ (Release permanode true true (some (br, n)) scUp f).1.eio = false
      ∧ (Release permanode true true (some (br, n)) scUp f).2
        = { f with content := some br, size := n } := by
  exact ⟨rfl, rfl, rfl, rfl⟩

/-- C4 counterexample: a populate call with a stale `lastPop` (0) at
`now = 100` whose describe fails (is an error) returns success — but
`lastPop` has been changed by that call to 100, not left unchanged as the
claim states. -/
theorem populate_error_updates_lastPop :
    populate 100 none ⟨"d", 0, []⟩ = (⟨"d", 100, []⟩, none)
      ∧ (100 : Nat) ≠ 0 := by decide

/-- C4 amended: on a describe error, populate logs and returns success,
but `lastPop` has already been set to `now` before the describe was
issued; consequently the next populate call within the populate interval
returns immediately without retrying the describe. -/
theorem populate_error_skips_retry (d : MutDirState) (now : Nat)
    (h : d.lastPop + populateInterval ≤ now) :
    populate now none d = ({ d with lastPop := now }, none)
      ∧ ∀ (now2 : Nat) (desc2 : Option Meta), now2 < now + populateInterval →
          populate now2 desc2 { d with lastPop := now }
            = ({ d with lastPop := now }, none) := by
  constructor
  · simp only [populate]
    rw [if_neg (by omega)]
  · intro now2 desc2 h2
    simp only [populate]
    rw [if_pos (by simpa using h2)]

/-- Witness for `populate_error_skips_retry`: stale at `now = 50`, the
failing call stamps `lastPop := 50` and the retry at 60 is skipped. -/
theorem populate_error_skips_retry_witness :
    populate 50 none ⟨"d", 0, []⟩ = (⟨"d", 50, []⟩, none)
      ∧ populate 60 (some []) ⟨"d", 50, []⟩ = (⟨"d", 50, []⟩, none) :=
  ⟨(populate_error_skips_retry ⟨"d", 0, []⟩ 50 (by decide)).1,
   (populate_error_skips_retry ⟨"d", 0, []⟩ 50 (by decide)).2 60 (some [])
     (by decide)⟩

/-- C8 counterexample: with `server_start = 0`, `atime` absent and
`mtime = 5`, Attr reports `Atime = 5`, not `server_start` — the claim's
"Atime equals server_start when atime is absent, regardless of mtime" is
false. -/
theorem attr_atime_not_serverStart :
    (mutFileAttr 0 0 false ⟨none, 0, some 5, none⟩).atime = 5
      ∧ (5 : Nat) ≠ 0 := by decide

/-- C8 amended: Attr reports `Mtime = server_start` when `mtime` is
absent; `Atime` equals `atime` when set, otherwise it falls back to
`mtime` when that is set, and equals `server_start` only when both are
absent. -/
theorem attr_time_defaults (serverStart permanodeU64 : Nat) (symLink : Bool)
    (f : MutFileState) :
    (f.mtime = none →
        (mutFileAttr serverStart permanodeU64 symLink f).mtime = serverStart)
      ∧ (∀ a, f.atime = some a →
          (mutFileAttr serverStart permanodeU64 symLink f).atime = a)
      ∧ (∀ m, f.atime = none → f.mtime = some m →
          (mutFileAttr serverStart permanodeU64 symLink f).atime = m)
      ∧ (f.atime = none → f.mtime = none →
          (mutFileAttr serverStart permanodeU64 symLink f).atime = serverStart) := by
  refine ⟨fun hm => ?_, fun a ha => ?_, fun m ha hm => ?_, fun ha hm => ?_⟩ <;>
    simp [mutFileAttr, accessTime, modTime, *]

/-- Witness for `attr_time_defaults` at a file with `mtime` absent and
`atime = 3`, `server_start = 7`. -/
theorem attr_time_defaults_witness :
    (mutFileAttr 7 0 false ⟨none, 0, none, some 3⟩).mtime = 7
      ∧ (mutFileAttr 7 0 false ⟨none, 0, none, some 3⟩).atime = 3 :=
  ⟨(attr_time_defaults 7 0 false ⟨none, 0, none, some 3⟩).1 rfl,
   (attr_time_defaults 7 0 false ⟨none, 0, none, some 3⟩).2.1 3 rfl⟩

/-- Writing under key `k` leaves the binding of any other name intact. -/
theorem getChild_setChild_ne (ch : Children) (k name : String)
    (node : MutNode) (h : k ≠ name) :
    getChild (setChild ch k node) name = getChild ch name := by
  induction ch with
  | nil => simp [setChild, getChild, h]
  | cons hd tl ih =>
    obtain ⟨k', v'⟩ := hd
    by_cases hk : k' = k
    · subst hk
      simp [setChild, getChild, h]
    · simp only [setChild, getChild, if_neg hk]
      rw [ih]

/-- Writing under key `k` makes `k`'s binding the written node. -/
theorem getChild_setChild_self (ch : Children) (k : String) (node : MutNode) :
    getChild (setChild ch k node) k = some node := by
  induction ch with
  | nil => simp [setChild, getChild]
  | cons hd tl ih =>
    obtain ⟨k', v'⟩ := hd
    by_cases hk : k' = k
    · subst hk
      simp [setChild, getChild]
    · simp [setChild, getChild, hk, ih]

/-- An attribute whose key does not carry the `camliPath:` prefix resolves
to no child: the loop `continue`s on it. -/
theorem attrNode_none_of_not_prefix (meta : Meta) (kv : String × List String)
    (h : strHasPrefix kv.1 "camliPath:" = false) :
    attrNode meta kv = none := by
  simp [attrNode, h]

/-- One loop iteration of populate leaves the binding of any name other
than the iteration's own `camliPath` name intact — in particular every
non-`camliPath` attribute leaves the whole map intact. -/
theorem processAttr_preserve (meta : Meta) (ch : Children)
    (kv : String × List String) (name : String)
    (h : strHasPrefix kv.1 "camliPath:" = true →
      strDropChars kv.1 "camliPath:".length ≠ name) :
    getChild (processAttr meta ch kv) name = getChild ch name := by
  cases hp : strHasPrefix kv.1 "camliPath:" with
  | false => simp [processAttr, attrNode_none_of_not_prefix meta kv hp]
  | true =>
    unfold processAttr
    cases attrNode meta kv with
    | none => rfl
    | some node => exact getChild_setChild_ne ch _ name node (h hp)

/-- The whole populate loop leaves the binding of a name no `camliPath`
attribute addresses intact. -/
theorem foldl_processAttr_preserve (meta : Meta) (name : String) :
    ∀ (attrs : AttrMap) (ch : Children),
      (∀ kv ∈ attrs, strHasPrefix kv.1 "camliPath:" = true →
        strDropChars kv.1 "camliPath:".length ≠ name) →
      getChild (attrs.foldl (processAttr meta) ch) name
        = getChild ch name := by
  intro attrs
  induction attrs with
  | nil => intro ch _; rfl
  | cons kv rest ih =>
    intro ch h
    simp only [List.foldl_cons]
    rw [ih _ fun x hx => h x (List.mem_cons_of_mem _ hx),
      processAttr_preserve meta ch kv name (h kv (List.mem_cons_self _ _))]

/-- C1 counterexample: a directory whose children map binds "a" to a
locally known file node, populated at time 30 (stale since 0) from a
describe response that binds `camliPath:a` to the permanode "c1": populate
rebinds "a" to a fresh directory node, overwriting the existing entry. -/
theorem populate_overwrites_existing_child :
    (populate 30
        (some [("d", ⟨"permanode", [("camliPath:a", ["c1"])], 0⟩),
          ("c1", ⟨"permanode", [], 0⟩)])
        ⟨"d", 0, [("a", .file "old" false "" none 7)]⟩).1.children
      = [("a", .dir "c1")]
    ∧ some (MutNode.dir "c1") ≠ some (MutNode.file "old" false "" none 7) := by
  decide

/-- C1 amended: populate preserves an existing entry only when its name is
not the `camliPath` name of any attribute in the describe response; a name
the response successfully describes (to a directory, file, or symlink
node) is re-bound to the node freshly built from the response —
overwriting any existing entry for that name. The response is an arbitrary
attribute list split as `pre ++ (k, vs) :: post`; the hypothesis that no
later attribute carries the same `camliPath` name encodes the uniqueness
of Go map keys (two distinct `camliPath:`-prefixed keys strip to distinct
names). -/
theorem populate_merge_policy :
    (∀ (now : Nat) (meta : Meta) (d : MutDirState) (name : String),
      (∀ db, metaGet meta d.permanode = some db →
        ∀ kv ∈ db.attr, strHasPrefix kv.1 "camliPath:" = true →
          strDropChars kv.1 "camliPath:".length ≠ name) →
      getChild (populate now (some meta) d).1.children name
        = getChild d.children name)
    ∧ (∀ (now : Nat) (meta : Meta) (d : MutDirState) (name k : String)
        (vs : List String) (node : MutNode) (pre post : AttrMap)
        (db : DescribedBlob),
      d.lastPop + populateInterval ≤ now →
      metaGet meta d.permanode = some db →
      db.attr = pre ++ (k, vs) :: post →
      strHasPrefix k "camliPath:" = true →
      strDropChars k "camliPath:".length = name →
      attrNode meta (k, vs) = some node →
      (∀ kv ∈ post, strHasPrefix kv.1 "camliPath:" = true →
        strDropChars kv.1 "camliPath:".length ≠ name) →
      getChild (populate now (some meta) d).1.children name = some node) := by
  constructor
  · intro now meta d name h
    simp only [populate]
    split
    · rfl
    · cases hdb : metaGet meta d.permanode with
      | none => simp [hdb]
      | some db =>
        simp only [hdb]
        exact foldl_processAttr_preserve meta name db.attr d.children (h db hdb)
  · intro now meta d name k vs node pre post db hstale hdb hattr hpre hname
      hnode hpost
    simp only [populate]
    rw [if_neg (by omega)]
    simp only [hdb, hattr, List.foldl_append, List.foldl_cons]
    rw [foldl_processAttr_preserve meta name post _ hpost]
    simp only [processAttr, hnode]
    rw [hname]
    exact getChild_setChild_self _ name node

/-- Witness for `populate_merge_policy`: part 1 preserves the binding of
"x" (no camliPath attribute names it); part 2, on a three-attribute
response (a non-camliPath attribute, then `camliPath:a` resolving to a
regular-file child with content "ct" of size 9, then `camliPath:b`),
overwrites the stale binding of "a" with the freshly built file node. -/
theorem populate_merge_policy_witness :
    getChild (populate 30
        (some [("d", ⟨"permanode", [("camliPath:a", ["c1"])], 0⟩),
          ("c1", ⟨"permanode", [], 0⟩)])
        ⟨"d", 0, [("x", .dir "keep")]⟩).1.children "x"
      = getChild [("x", MutNode.dir "keep")] "x"
    ∧ getChild (populate 30
        (some [("d", ⟨"permanode",
            [("camliOther", ["v"]), ("camliPath:a", ["c1"]),
              ("camliPath:b", ["c2"])], 0⟩),
          ("c1", ⟨"permanode", [("camliContent", ["ct"])], 0⟩),
          ("ct", ⟨"file", [], 9⟩),
          ("c2", ⟨"permanode", [], 0⟩)])
        ⟨"d", 0, [("a", .file "old" false "" none 7)]⟩).1.children "a"
      = some (.file "c1" false "" (some "ct") 9) :=
  ⟨populate_merge_policy.1 30 _ ⟨"d", 0, [("x", .dir "keep")]⟩ "x"
      (by decide),
   populate_merge_policy.2 30 _ ⟨"d", 0, [("a", .file "old" false "" none 7)]⟩
      "a" "camliPath:a" ["c1"] (.file "c1" false "" (some "ct") 9)
      [("camliOther", ["v"])] [("camliPath:b", ["c2"])]
      ⟨"permanode",
        [("camliOther", ["v"]), ("camliPath:a", ["c1"]),
          ("camliPath:b", ["c2"])], 0⟩
      (by decide) (by decide) (by decide) (by decide) (by decide) (by decide)
      (by decide)⟩

/-- populate never changes the directory's permanode. -/
theorem populate_permanode (now : Nat) (desc : Option Meta)
    (d : MutDirState) : (populate now desc d).1.permanode = d.permanode := by
  simp only [populate]
  split
  · rfl
  · cases desc with
    | none => rfl
    | some meta => cases h2 : metaGet meta d.permanode <;> simp [h2]

/-- C5: Rename fails with *I/O error* and emits no claim when the
destination is not a directory node of this filesystem; after populating
both directories it fails with *not found* and emits no claim when
`oldName` is unresolved; and when `oldName` resolves and the uploads
succeed it captures the single claim date `claimNow` and issues exactly
two claims in order — first set-attribute `camliPath:newName` = the
target's permanode on the destination's permanode, then del-attribute
`camliPath:oldName` on the source's permanode — both dated `claimNow`. -/
theorem rename_claim_order (newDir : Option MutDirState) (src : MutDirState)
    (descSrc descDst : Option Meta) (popNow claimNow : Nat)
    (oldName newName : String) (u1 u2 : Bool) :
    (newDir = none →
      Rename newDir src descSrc descDst popNow claimNow oldName newName u1 u2
        = (.eio, []))
    ∧ (∀ dst, newDir = some dst →
        (populate popNow descSrc src).2 = none →
        (populate popNow descDst dst).2 = none →
        (getChild (populate popNow descSrc src).1.children oldName = none →
          Rename newDir src descSrc descDst popNow claimNow oldName newName
              u1 u2
            = (.enoent, []))
        ∧ (∀ target,
            getChild (populate popNow descSrc src).1.children oldName
              = some target →
            Rename newDir src descSrc descDst popNow claimNow oldName newName
                true true
              = (.ok,
                [⟨.set, dst.permanode, "camliPath:" ++ newName,
                    target.permanodeString, some claimNow⟩,
                  ⟨.del, src.permanode, "camliPath:" ++ oldName, "",
                    some claimNow⟩]))) := by
  constructor
  · intro h
    subst h
    rfl
  · intro dst h hps hpd
    subst h
    constructor
    · intro htgt
      simp [Rename, hps, hpd, htgt]
    · intro target htgt
      simp [Rename, hps, hpd, htgt, populate_permanode]

/-- Witness for `rename_claim_order`: a concrete rename of "old" (bound to
the permanode "tP") from source "srcP" to "new" in destination "dstP",
with both directories freshly populated, emits the set claim then the del
claim, both dated 77. -/
theorem rename_claim_order_witness :
    Rename (some ⟨"dstP", 100, []⟩) ⟨"srcP", 100, [("old", .dir "tP")]⟩
        none none 100 77 "old" "new" true true
      = (.ok,
        [⟨.set, "dstP", "camliPath:" ++ "new", "tP", some 77⟩,
          ⟨.del, "srcP", "camliPath:" ++ "old", "", some 77⟩]) :=
  ((rename_claim_order (some ⟨"dstP", 100, []⟩)
      ⟨"srcP", 100, [("old", .dir "tP")]⟩ none none 100 77 "old" "new"
      true true).2 ⟨"dstP", 100, []⟩ rfl (by decide) (by decide)).2
    (.dir "tP") (by decide)

end CamliFs

namespace DirLock

/-- A successful map lookup is membership. -/
theorem lockGet_mem (l : List (String × Nat)) (dir : String) (v : Nat)
    (h : lockGet l dir = some v) : (dir, v) ∈ l := by
  induction l with
  | nil => simp [lockGet] at h
  | cons hd tl ih =>
    obtain ⟨k, w⟩ := hd
    by_cases hk : k = dir
    · subst hk
      simp [lockGet] at h
      subst h
      exact List.mem_cons_self _ _
    · simp only [lockGet, if_neg hk] at h
      exact List.mem_cons_of_mem _ (ih h)

/-- C9: both acquisitions are `getDirLock`, which increments the
outstanding count and returns the lock mapped to the path — the existing
lock when present (map unchanged), a freshly allocated one bound to the
path when absent; `Unlock` decrements the count and, when it reaches zero,
resets the entire map — so that an acquisition after the reset obtains a
lock distinct from every lock previously in the map. -/
theorem dirlock_registry (st : RegState) (dir : String) :
    keepDirectoryLock dir st = getDirLock dir st
    ∧ deleteDirectoryLock dir st = getDirLock dir st
    ∧ (getDirLock dir st).2.locksOut = st.locksOut + 1
    ∧ (∀ l, lockGet st.dirLocks dir = some l →
        getDirLock dir st = (l, { st with locksOut := st.locksOut + 1 }))
    ∧ (lockGet st.dirLocks dir = none →
        (getDirLock dir st).1 = st.nextId
        ∧ lockGet (getDirLock dir st).2.dirLocks dir = some st.nextId)
    ∧ (lockUnlock st).locksOut = st.locksOut - 1
    ∧ (st.locksOut - 1 = 0 → (lockUnlock st).dirLocks = [])
    ∧ (RegWf st → st.locksOut - 1 = 0 →
        ∀ (dir2 : String) (l0 : Nat), lockGet st.dirLocks dir2 = some l0 →
          (getDirLock dir (lockUnlock st)).1 ≠ l0) := by
  refine ⟨rfl, rfl, ?_, ?_, ?_, ?_, ?_, ?_⟩
  · cases h : lockGet st.dirLocks dir <;> simp [getDirLock, h]
  · intro l hl
    simp [getDirLock, hl]
  · intro h
    simp [getDirLock, h, lockGet]
  · simp only [lockUnlock, unlockDirLock]
    split <;> rfl
  · intro h
    simp [lockUnlock, unlockDirLock, h]
  · intro hwf hz dir2 l0 hl0
    have hdl : (lockUnlock st).dirLocks = [] := by
      simp [lockUnlock, unlockDirLock, hz]
    have hni : (lockUnlock st).nextId = st.nextId := by
      simp only [lockUnlock, unlockDirLock]
      split <;> rfl
    have hfst : (getDirLock dir (lockUnlock st)).1 = st.nextId := by
      simp [getDirLock, hdl, lockGet, hni]
    rw [hfst]
    have := hwf (dir2, l0) (lockGet_mem _ _ _ hl0)
    omega

/-- Witness for `dirlock_registry` at the state with one outstanding
acquisition holding lock 0 for path "a": the re-acquisition hits the
existing lock; the unlock drops the count to zero and clears the map; the
next acquisition after the reset returns a lock distinct from lock 0. -/
theorem dirlock_registry_witness :
    getDirLock "a" ⟨1, [("a", 0)], 1⟩
        = (0, { (⟨1, [("a", 0)], 1⟩ : RegState) with locksOut := 2 })
      ∧ (lockUnlock ⟨1, [("a", 0)], 1⟩).dirLocks = []
      ∧ (getDirLock "a" (lockUnlock ⟨1, [("a", 0)], 1⟩)).1 ≠ 0 :=
  ⟨(dirlock_registry ⟨1, [("a", 0)], 1⟩ "a").2.2.2.1 0 (by decide),
   (dirlock_registry ⟨1, [("a", 0)], 1⟩ "a").2.2.2.2.2.2.1 (by decide),
   (dirlock_registry ⟨1, [("a", 0)], 1⟩ "a").2.2.2.2.2.2.2 (by decide)
     (by decide) "a" 0 (by decide)⟩

end DirLock
